import Mathlib

/-!
Verification of the page-numbering core of the `pdf-page-number` repository
(`src/app.py`), as a shallow embedding in Lean 4.

The embedding mirrors the two functions of `app.py`:

* `create_page_number_overlay` (app.py lines 21-58): builds a single-page
  overlay of the same width/height as the target page and draws the decimal
  string of the page number right-aligned at
  `(page_width - 15, page_height - 15)`.  The reportlab canvas is modelled
  by the `Overlay` structure recording exactly what is drawn.

* `add_page_numbers_to_pdf` (app.py lines 60-140): iterates the pages of the
  decoded document with `enumerate` (0-based `page_idx`); a page is skipped,
  i.e. copied to the writer unchanged, when `page_idx + 1 < start_page` or
  `page_idx + 1 > end_page` (with `end_page` defaulting to the page count
  when `None`); otherwise the running number
  `start_page + (page_idx + 1 - start_page)` is drawn on an overlay which is
  merged onto the page before the page is appended to the writer.  The whole
  body runs inside a single `try`/`except Exception` that shows one generic
  Streamlit message `"Errore durante l'elaborazione del PDF: " + str(e)` and
  returns `None`.

Modelling choices:

* Page geometry (`page.mediabox.width/height`, Python floats) is modelled by
  `ℚ`; the only arithmetic performed on it is the literal subtraction of the
  margin constant 15, which is exact.
* A page's drawable content is the abstract `baseContent` tag plus the list
  `overlays` of overlays merged on top of it, in merge order
  (`page.merge_page` composites the overlay over the existing content).
* Exceptions raised by the PDF libraries are modelled explicitly: a
  malformed input on which `PdfReader` raises is `PdfInput.malformed msg`
  (the exception text), and a page on which reading the geometry /
  synthesizing the overlay / `merge_page` raises carries
  `mergeFails := true` with its exception text in `failMsg`.
* Python ints (`start_page`, `end_page`, page numbers) are `Int`.
-/

/-- What `create_page_number_overlay` draws: a single-page canvas of the given
dimensions carrying one right-aligned text string at an anchor point, in the
given font.  Mirrors the reportlab canvas built at app.py lines 36-52. -/
structure Overlay where
  width : ℚ
  height : ℚ
  text : String
  x : ℚ
  y : ℚ
  rightAligned : Bool
  fontName : String
  fontSize : ℚ
deriving DecidableEq

/-- A page of the decoded document: geometry from `page.mediabox`, abstract
original content, and the overlays merged on top of it so far.  `mergeFails`
/ `failMsg` model a page on which overlay synthesis or `merge_page` raises
(e.g. unreadable geometry), with the exception text. -/
structure Page where
  width : ℚ
  height : ℚ
  baseContent : String
  overlays : List Overlay
  mergeFails : Bool
  failMsg : String
deriving DecidableEq

/-- Input bytes as seen through `PdfReader`: either decoding raises (with the
exception text) or it yields the page list. -/
inductive PdfInput where
  | malformed (msg : String)
  | wellFormed (pages : List Page)
deriving DecidableEq

/-- Outcome of `add_page_numbers_to_pdf`: the serialized output pages, or the
`st.error` message shown by the `except` handler (the function then returns
`None`). -/
inductive Result where
  | ok (pages : List Page)
  | errorShown (msg : String)
deriving DecidableEq

/-- The fixed text prepended by the `except` handler at app.py line 139. -/
def genericErrorText : String := "Errore durante l\x27elaborazione del PDF: "

/-- app.py lines 21-58: overlay of the page's dimensions, with the decimal
string of `page_num` drawn right-aligned at
`(page_width - 15, page_height - 15)`. -/
def create_page_number_overlay (page_num : Int) (page_width page_height : ℚ)
    (font_size : ℚ) (font_name : String) : Overlay :=
  { width := page_width
    height := page_height
    text := toString page_num
    x := page_width - 15
    y := page_height - 15
    rightAligned := true
    fontName := font_name
    fontSize := font_size }

/-- `page.merge_page(overlay_page)` (app.py line 122): composites the overlay
on top of the page's existing content. -/
def mergePage (p : Page) (ov : Overlay) : Page :=
  { p with overlays := p.overlays ++ [ov] }

/-- The loop of app.py lines 93-125 over `enumerate(reader.pages)`, starting
at index `idx`.  A raised exception (modelled by `mergeFails`) propagates as
`Except.error` with the exception text; the pages accumulated so far in the
writer are discarded, as the code never reaches `writer.write`. -/
def processPages (s e : Int) (fs : ℚ) (fn : String) :
    List Page → Nat → Except String (List Page)
  | [], _ => Except.ok []
  | p :: rest, idx =>
    if (idx : Int) + 1 < s ∨ (idx : Int) + 1 > e then
      (processPages s e fs fn rest (idx + 1)).map (fun out => p :: out)
    else if p.mergeFails then
      Except.error p.failMsg
    else
      (processPages s e fs fn rest (idx + 1)).map (fun out =>
        mergePage p
          (create_page_number_overlay (s + ((idx : Int) + 1 - s))
            p.width p.height fs fn) :: out)

/-- app.py lines 60-140.  `end_page = none` models the Python default `None`,
replaced by the page count (line 86).  Any exception — decoding the input or
processing a page — is caught by the single handler at line 138, which shows
`genericErrorText ++ str(e)` and returns `None`. -/
def add_page_numbers_to_pdf (input : PdfInput) (start_page : Int)
    (end_page : Option Int) (font_size : ℚ) (font_name : String) : Result :=
  match input with
  | PdfInput.malformed m => Result.errorShown (genericErrorText ++ m)
  | PdfInput.wellFormed pages =>
    let total : Int := pages.length
    let e := end_page.getD total
    match processPages start_page e font_size font_name pages 0 with
    | Except.ok out => Result.ok out
    | Except.error m => Result.errorShown (genericErrorText ++ m)

/-- What the loop body does to the page at 0-based index `idx` when it
succeeds: copied unchanged when outside the interval, otherwise merged with
the overlay for the running number `s + (idx + 1 - s)`. -/
def numberPage (s e : Int) (fs : ℚ) (fn : String) (idx : Nat) (p : Page) : Page :=
  if (idx : Int) + 1 < s ∨ (idx : Int) + 1 > e then p
  else
    mergePage p
      (create_page_number_overlay (s + ((idx : Int) + 1 - s)) p.width p.height fs fn)

/-- The parse error of the spec's range parser (§4.1, §7): `InvalidFormat` is
its only constructor, the parser's only error condition. -/
inductive ParseError where
  | InvalidFormat
deriving DecidableEq

/-- Splitting a character list at every occurrence of the separator `c`;
always returns at least one (possibly empty) piece, like splitting a string
on a separator character. -/
def splitOnChar (c : Char) : List Char → List (List Char)
  | [] => [[]]
  | d :: rest =>
    match splitOnChar c rest with
    | [] => if d = c then [[], []] else [[d]]
    | t :: ts => if d = c then [] :: t :: ts else (d :: t) :: ts

/-- Strips spaces from both ends of a character list. -/
def trimChars (l : List Char) : List Char :=
  ((l.dropWhile (fun c => c = ' ')).reverse.dropWhile (fun c => c = ' ')).reverse

/-- Reads a nonempty all-digit character list as a natural number; `none`
otherwise. -/
def charsToNat? (l : List Char) : Option Nat :=
  match l with
  | [] => none
  | _ =>
    if l.all (fun c => c.isDigit) then
      some (l.foldl (fun acc c => acc * 10 + (c.toNat - 48)) 0)
    else none

/-- Modelled from the spec: the repository's `src/app.py` contains no range
parser (only the interval mode); §4.1 specifies it.  A token is a single
integer or a hyphenated inclusive range `start-end`; an inverted range
contributes nothing (the choice §4.1 and §9 leave to the implementer).
`none` means the token cannot be tokenized as an integer or range. -/
def parseToken (tok : List Char) : Option (List Nat) :=
  match splitOnChar '-' (trimChars tok) with
  | [a] => (charsToNat? (trimChars a)).map (fun n => [n])
  | [a, b] =>
    match charsToNat? (trimChars a), charsToNat? (trimChars b) with
    | some x, some y => some ((List.range (y + 1 - x)).map (fun k => x + k))
    | _, _ => none
  | _ => none

/-- Modelled from the spec (§4.1): split the selection text on commas, parse
every token (any untokenizable token fails the whole parse with
`InvalidFormat`), collect all contributed candidates, silently discard those
outside `[1, totalPages]`, and return the ascending enumeration of the
distinct survivors. -/
def parsePageSelection (selectionText : String) (totalPages : Nat) :
    Except ParseError (List Nat) :=
  match (splitOnChar ',' selectionText.toList).mapM parseToken with
  | none => Except.error ParseError.InvalidFormat
  | some parts =>
    Except.ok ((List.range (totalPages + 1)).filter
      (fun n => decide (1 ≤ n) && parts.flatten.contains n))

/-- A concrete US-letter-sized page used by the witnesses. -/
def onePage : Page :=
  { width := 612, height := 792, baseContent := "body", overlays := [],
    mergeFails := false, failMsg := "" }

/-- A page on which overlay synthesis / merge raises with message `m`. -/
def badPage (m : String) : Page :=
  { width := 612, height := 792, baseContent := "body", overlays := [],
    mergeFails := true, failMsg := m }

/-- The overlay drawn on `onePage` when its running number is 1. -/
def demoOv : Overlay := create_page_number_overlay 1 612 792 12 "Helvetica"

example : add_page_numbers_to_pdf (PdfInput.wellFormed [onePage]) 1 (some 1) 12 "Helvetica"
    = Result.ok [mergePage onePage demoOv] := rfl

example : parsePageSelection "1,3,5-7" 10 = Except.ok [1, 3, 5, 6, 7] := rfl

example : parsePageSelection "5,3,3,1" 10 = Except.ok [1, 3, 5] := rfl

example : parsePageSelection "1,3,20" 10 = Except.ok [1, 3] := rfl

example : parsePageSelection "abc" 10 = Except.error ParseError.InvalidFormat := rfl

lemma except_map_eq_ok {α β ε : Type} {f : α → β} {x : Except ε α} {b : β} :
    x.map f = Except.ok b ↔ ∃ a, x = Except.ok a ∧ f a = b := by
  cases x <;> simp [Except.map]

lemma processPages_ok_length (s e : Int) (fs : ℚ) (fn : String) :
    ∀ (ps : List Page) (idx : Nat) (out : List Page),
      processPages s e fs fn ps idx = Except.ok out → out.length = ps.length := by
  intro ps
  induction ps with
  | nil =>
    intro idx out h
    simp only [processPages] at h
    cases h
    rfl
  | cons p rest ih =>
    intro idx out h
    simp only [processPages] at h
    by_cases hc : (idx : Int) + 1 < s ∨ (idx : Int) + 1 > e
    · rw [if_pos hc, except_map_eq_ok] at h
      obtain ⟨out2, hrec, hout⟩ := h
      subst hout
      simp [ih (idx + 1) out2 hrec]
    · rw [if_neg hc] at h
      by_cases hf : p.mergeFails
      · rw [if_pos hf] at h
        cases h
      · rw [if_neg hf, except_map_eq_ok] at h
        obtain ⟨out2, hrec, hout⟩ := h
        subst hout
        simp [ih (idx + 1) out2 hrec]

lemma processPages_ok_getElem (s e : Int) (fs : ℚ) (fn : String) :
    ∀ (ps : List Page) (idx : Nat) (out : List Page),
      processPages s e fs fn ps idx = Except.ok out →
      ∀ i : Nat, out[i]? = (ps[i]?).map (numberPage s e fs fn (idx + i)) := by
  intro ps
  induction ps with
  | nil =>
    intro idx out h i
    simp only [processPages] at h
    cases h
    simp
  | cons p rest ih =>
    intro idx out h i
    simp only [processPages] at h
    by_cases hc : (idx : Int) + 1 < s ∨ (idx : Int) + 1 > e
    · rw [if_pos hc, except_map_eq_ok] at h
      obtain ⟨out2, hrec, hout⟩ := h
      subst hout
      cases i with
      | zero =>
        simp [numberPage, if_pos hc]
      | succ j =>
        have harith : idx + (j + 1) = (idx + 1) + j := by omega
        simp only [List.getElem?_cons_succ, harith]
        exact ih (idx + 1) out2 hrec j
    · rw [if_neg hc] at h
      by_cases hf : p.mergeFails
      · rw [if_pos hf] at h
        cases h
      · rw [if_neg hf, except_map_eq_ok] at h
        obtain ⟨out2, hrec, hout⟩ := h
        subst hout
        cases i with
        | zero =>
          simp [numberPage, if_neg hc]
        | succ j =>
          have harith : idx + (j + 1) = (idx + 1) + j := by omega
          simp only [List.getElem?_cons_succ, harith]
          exact ih (idx + 1) out2 hrec j

lemma add_wellFormed_eq (pages : List Page) (s : Int) (e? : Option Int)
    (fs : ℚ) (fn : String) :
    add_page_numbers_to_pdf (PdfInput.wellFormed pages) s e? fs fn =
      match processPages s (e?.getD (pages.length : Int)) fs fn pages 0 with
      | Except.ok out => Result.ok out
      | Except.error m => Result.errorShown (genericErrorText ++ m) := rfl

lemma add_malformed_eq (m : String) (s : Int) (e? : Option Int)
    (fs : ℚ) (fn : String) :
    add_page_numbers_to_pdf (PdfInput.malformed m) s e? fs fn =
      Result.errorShown (genericErrorText ++ m) := rfl

lemma add_ok_processPages (pages out : List Page) (s : Int) (e? : Option Int)
    (fs : ℚ) (fn : String)
    (h : add_page_numbers_to_pdf (PdfInput.wellFormed pages) s e? fs fn = Result.ok out) :
    processPages s (e?.getD (pages.length : Int)) fs fn pages 0 = Except.ok out := by
  rw [add_wellFormed_eq] at h
  split at h
  · cases h
    assumption
  · cases h

lemma add_ok_getElem (pages out : List Page) (s e : Int) (fs : ℚ) (fn : String)
    (h : add_page_numbers_to_pdf (PdfInput.wellFormed pages) s (some e) fs fn = Result.ok out) :
    out.length = pages.length ∧
      ∀ i : Nat, out[i]? = (pages[i]?).map (numberPage s e fs fn i) := by
  have hp := add_ok_processPages pages out s (some e) fs fn h
  simp only [Option.getD_some] at hp
  refine ⟨processPages_ok_length s e fs fn pages 0 out hp, fun i => ?_⟩
  have := processPages_ok_getElem s e fs fn pages 0 out hp i
  simpa using this

/-- C1: for every input PDF and every start_page/end_page interval, the
document returned by `add_page_numbers_to_pdf` has exactly as many pages as
the input, the page at each position corresponds to the input page at the
same position, and a page changes — and then only by an overlay appended to
its content — exactly when its 1-based index lies inside the interval. -/
theorem add_page_numbers_preserves_structure
    (pages out : List Page) (s e : Int) (fs : ℚ) (fn : String) (i : Nat) (p : Page)
    (h : add_page_numbers_to_pdf (PdfInput.wellFormed pages) s (some e) fs fn = Result.ok out)
    (hp : pages[i]? = some p) :
    out.length = pages.length ∧
    (¬ (s ≤ (i : Int) + 1 ∧ (i : Int) + 1 ≤ e) → out[i]? = some p) ∧
    ((s ≤ (i : Int) + 1 ∧ (i : Int) + 1 ≤ e) →
      ∃ ov, out[i]? = some { p with overlays := p.overlays ++ [ov] }) := by
  obtain ⟨hlen, hget⟩ := add_ok_getElem pages out s e fs fn h
  have hi := hget i
  rw [hp] at hi
  refine ⟨hlen, ?_, ?_⟩
  · intro hout
    have hc : (i : Int) + 1 < s ∨ (i : Int) + 1 > e := by omega
    simpa [numberPage, if_pos hc] using hi
  · intro hin
    have hc : ¬ ((i : Int) + 1 < s ∨ (i : Int) + 1 > e) := by omega
    refine ⟨create_page_number_overlay (s + ((i : Int) + 1 - s)) p.width p.height fs fn, ?_⟩
    simpa [numberPage, if_neg hc, mergePage] using hi

/-- Witness for C1 at a concrete input: one page, interval `[1, 1]`. -/
theorem add_page_numbers_preserves_structure_witness :
    [mergePage onePage demoOv].length = [onePage].length ∧
    (¬ ((1 : Int) ≤ ((0 : Nat) : Int) + 1 ∧ ((0 : Nat) : Int) + 1 ≤ (1 : Int)) →
      [mergePage onePage demoOv][(0 : Nat)]? = some onePage) ∧
    (((1 : Int) ≤ ((0 : Nat) : Int) + 1 ∧ ((0 : Nat) : Int) + 1 ≤ (1 : Int)) →
      ∃ ov, [mergePage onePage demoOv][(0 : Nat)]? =
        some { onePage with overlays := onePage.overlays ++ [ov] }) :=
  add_page_numbers_preserves_structure [onePage] [mergePage onePage demoOv]
    1 1 12 "Helvetica" 0 onePage rfl rfl

/-- C2: in interval mode, a page whose 1-based index `i + 1` satisfies
`start_page ≤ i + 1 ≤ end_page` gets the overlay for the running number
`start_page + ((i + 1) - start_page)`, and that number equals the page's own
1-based index. -/
theorem interval_number_equals_index
    (pages out : List Page) (s e : Int) (fs : ℚ) (fn : String) (i : Nat) (p : Page)
    (h : add_page_numbers_to_pdf (PdfInput.wellFormed pages) s (some e) fs fn = Result.ok out)
    (hp : pages[i]? = some p)
    (hs : s ≤ (i : Int) + 1) (he : (i : Int) + 1 ≤ e) :
    out[i]? = some (mergePage p
      (create_page_number_overlay (s + ((i : Int) + 1 - s)) p.width p.height fs fn)) ∧
    s + ((i : Int) + 1 - s) = (i : Int) + 1 := by
  obtain ⟨hlen, hget⟩ := add_ok_getElem pages out s e fs fn h
  have hi := hget i
  rw [hp] at hi
  have hc : ¬ ((i : Int) + 1 < s ∨ (i : Int) + 1 > e) := by omega
  refine ⟨by simpa [numberPage, if_neg hc] using hi, by omega⟩

/-- Witness for C2 at a concrete input: one page, interval `[1, 1]`. -/
theorem interval_number_equals_index_witness :
    [mergePage onePage demoOv][(0 : Nat)]? = some (mergePage onePage
      (create_page_number_overlay ((1 : Int) + (((0 : Nat) : Int) + 1 - 1))
        onePage.width onePage.height 12 "Helvetica")) ∧
    (1 : Int) + (((0 : Nat) : Int) + 1 - 1) = ((0 : Nat) : Int) + 1 :=
  interval_number_equals_index [onePage] [mergePage onePage demoOv]
    1 1 12 "Helvetica" 0 onePage rfl rfl (by omega) (by omega)

/-- C3: a page whose 1-based index lies outside `[start_page, end_page]` is
copied to the output unmodified — the same page value, with no overlay merged
onto it. -/
theorem outside_interval_unmodified
    (pages out : List Page) (s e : Int) (fs : ℚ) (fn : String) (i : Nat) (p : Page)
    (h : add_page_numbers_to_pdf (PdfInput.wellFormed pages) s (some e) fs fn = Result.ok out)
    (hp : pages[i]? = some p)
    (hout : (i : Int) + 1 < s ∨ e < (i : Int) + 1) :
    out[i]? = some p := by
  obtain ⟨hlen, hget⟩ := add_ok_getElem pages out s e fs fn h
  have hi := hget i
  rw [hp] at hi
  have hc : (i : Int) + 1 < s ∨ (i : Int) + 1 > e := hout
  simpa [numberPage, if_pos hc] using hi

/-- Witness for C3 at a concrete input: one page, interval `[2, 2]`, so page
1 is outside the interval and passes through unchanged. -/
theorem outside_interval_unmodified_witness :
    [onePage][(0 : Nat)]? = some onePage :=
  outside_interval_unmodified [onePage] [onePage] 2 2 12 "Helvetica" 0 onePage
    rfl rfl (by omega)

/-- C6: the overlay merged onto a numbered page is a canvas of exactly the
page's width and height carrying the decimal string of the page number,
right-aligned with baseline anchored at
`(pageWidth - 15, pageHeight - 15)`, in the requested font. -/
theorem overlay_geometry
    (pages out : List Page) (s e : Int) (fs : ℚ) (fn : String) (i : Nat) (p : Page)
    (h : add_page_numbers_to_pdf (PdfInput.wellFormed pages) s (some e) fs fn = Result.ok out)
    (hp : pages[i]? = some p)
    (hs : s ≤ (i : Int) + 1) (he : (i : Int) + 1 ≤ e) :
    ∃ ov, out[i]? = some (mergePage p ov) ∧
      ov.width = p.width ∧ ov.height = p.height ∧
      ov.x = p.width - 15 ∧ ov.y = p.height - 15 ∧
      ov.rightAligned = true ∧
      ov.text = toString (s + ((i : Int) + 1 - s)) ∧
      ov.fontName = fn ∧ ov.fontSize = fs := by
  obtain ⟨hlen, hget⟩ := add_ok_getElem pages out s e fs fn h
  have hi := hget i
  rw [hp] at hi
  have hc : ¬ ((i : Int) + 1 < s ∨ (i : Int) + 1 > e) := by omega
  refine ⟨create_page_number_overlay (s + ((i : Int) + 1 - s)) p.width p.height fs fn,
    by simpa [numberPage, if_neg hc] using hi, rfl, rfl, rfl, rfl, rfl, rfl, rfl, rfl⟩

/-- C4 counterexample: a decoding failure, a merge failure on page 1, and a
merge failure on page 2 (all with exception text "boom") produce the one and
same value — the generic message followed by `None` — so the outcome carries
neither an error class (`DocumentReadError` vs `PageRenderError`) nor the
index of the failing page. -/
theorem error_reporting_counterexample :
    add_page_numbers_to_pdf (PdfInput.malformed "boom") 1 (some 2) 12 "Helvetica"
      = Result.errorShown (genericErrorText ++ "boom") ∧
    add_page_numbers_to_pdf (PdfInput.wellFormed [badPage "boom"]) 1 (some 2) 12 "Helvetica"
      = Result.errorShown (genericErrorText ++ "boom") ∧
    add_page_numbers_to_pdf (PdfInput.wellFormed [onePage, badPage "boom"]) 1 (some 2) 12 "Helvetica"
      = Result.errorShown (genericErrorText ++ "boom") :=
  ⟨rfl, rfl, rfl⟩

/-- C4 amended: any failure — decoding the input bytes, or overlay synthesis
/ merge on some page — aborts the whole operation and is reported through the
single generic handler, whose message is the fixed prefix followed by the
exception text; the report is untyped and carries no page index. -/
theorem generic_error_handling
    (m : String) (pages : List Page) (s : Int) (e? : Option Int) (fs : ℚ) (fn : String)
    (h : processPages s (e?.getD (pages.length : Int)) fs fn pages 0 = Except.error m) :
    add_page_numbers_to_pdf (PdfInput.malformed m) s e? fs fn
      = Result.errorShown (genericErrorText ++ m) ∧
    add_page_numbers_to_pdf (PdfInput.wellFormed pages) s e? fs fn
      = Result.errorShown (genericErrorText ++ m) := by
  refine ⟨rfl, ?_⟩
  rw [add_wellFormed_eq, h]

/-- Witness for the amended C4 at a concrete input: exception text "boom",
one page whose merge raises. -/
theorem generic_error_handling_witness :
    add_page_numbers_to_pdf (PdfInput.malformed "boom") 1 (some 1) 12 "Helvetica"
      = Result.errorShown (genericErrorText ++ "boom") ∧
    add_page_numbers_to_pdf (PdfInput.wellFormed [badPage "boom"]) 1 (some 1) 12 "Helvetica"
      = Result.errorShown (genericErrorText ++ "boom") :=
  generic_error_handling "boom" [badPage "boom"] 1 (some 1) 12 "Helvetica" rfl

/-- C5: `add_page_numbers_to_pdf` is atomic for the caller: on any input it
either returns output containing every page of the document, or shows an
error and returns `None`; a partially processed document is never returned. -/
theorem atomic_output (pages : List Page) (m : String) (s : Int) (e? : Option Int)
    (fs : ℚ) (fn : String) :
    ((∃ out, add_page_numbers_to_pdf (PdfInput.wellFormed pages) s e? fs fn = Result.ok out ∧
        out.length = pages.length) ∨
      (∃ msg, add_page_numbers_to_pdf (PdfInput.wellFormed pages) s e? fs fn
        = Result.errorShown msg)) ∧
    (∃ msg, add_page_numbers_to_pdf (PdfInput.malformed m) s e? fs fn
      = Result.errorShown msg) := by
  constructor
  · cases hps : processPages s (e?.getD (pages.length : Int)) fs fn pages 0 with
    | ok out =>
      exact Or.inl ⟨out, by rw [add_wellFormed_eq, hps],
        processPages_ok_length s (e?.getD (pages.length : Int)) fs fn pages 0 out hps⟩
    | error msg =>
      exact Or.inr ⟨genericErrorText ++ msg, by rw [add_wellFormed_eq, hps]⟩
  · exact ⟨genericErrorText ++ m, rfl⟩

/-- C7: on a zero-page document the loop body never runs, so the engine
returns a zero-page document unchanged and reports no error, for every
start/end choice (including the default `end_page = None`). -/
theorem empty_document_ok (s : Int) (e? : Option Int) (fs : ℚ) (fn : String) :
    add_page_numbers_to_pdf (PdfInput.wellFormed []) s e? fs fn = Result.ok [] := rfl

/-- C8: the operation is not idempotent: numbering the one-page document
twice with the same selection stacks a second, identical overlay on top of
the first, so the result of applying it twice differs from applying it
once. -/
theorem not_idempotent :
    add_page_numbers_to_pdf (PdfInput.wellFormed [onePage]) 1 (some 1) 12 "Helvetica"
      = Result.ok [mergePage onePage demoOv] ∧
    add_page_numbers_to_pdf (PdfInput.wellFormed [mergePage onePage demoOv]) 1 (some 1) 12 "Helvetica"
      = Result.ok [mergePage (mergePage onePage demoOv) demoOv] ∧
    (mergePage (mergePage onePage demoOv) demoOv).overlays = [demoOv, demoOv] ∧
    mergePage (mergePage onePage demoOv) demoOv ≠ mergePage onePage demoOv := by
  refine ⟨rfl, rfl, rfl, ?_⟩
  intro hcontra
  have hlen := congrArg (fun p => p.overlays.length) hcontra
  simp [mergePage, onePage] at hlen

lemma processPages_skip_all (s e : Int) (fs : ℚ) (fn : String) (hes : e < s) :
    ∀ (ps : List Page) (idx : Nat), processPages s e fs fn ps idx = Except.ok ps := by
  intro ps
  induction ps with
  | nil => intro idx; simp [processPages]
  | cons p rest ih =>
    intro idx
    have hc : (idx : Int) + 1 < s ∨ (idx : Int) + 1 > e := by omega
    rw [processPages, if_pos hc, ih (idx + 1)]
    rfl

/-- C10: an inverted interval (`end_page < start_page`) selects nothing: the
operation succeeds and returns every page, in order, unmodified. -/
theorem inverted_interval_noop (pages : List Page) (s e : Int) (fs : ℚ) (fn : String)
    (h : e < s) :
    add_page_numbers_to_pdf (PdfInput.wellFormed pages) s (some e) fs fn
      = Result.ok pages := by
  rw [add_wellFormed_eq]
  simp only [Option.getD_some]
  rw [processPages_skip_all s e fs fn h pages 0]

/-- C9: whenever `parsePageSelection` succeeds, its result is strictly
ascending with no duplicates and every value lies in `[1, totalPages]`; a
selection text that cannot be tokenized as integers/ranges fails with
`InvalidFormat`, and `InvalidFormat` is the only error condition. -/
theorem parsePageSelection_spec (text : String) (totalPages : Nat) (l : List Nat)
    (h : parsePageSelection text totalPages = Except.ok l) :
    l.Sorted (· < ·) ∧ l.Nodup ∧ (∀ x ∈ l, 1 ≤ x ∧ x ≤ totalPages) ∧
    (∀ (t : String) (n : Nat),
      (splitOnChar ',' t.toList).mapM parseToken = none →
      parsePageSelection t n = Except.error ParseError.InvalidFormat) ∧
    (∀ (t : String) (n : Nat) (err : ParseError),
      parsePageSelection t n = Except.error err → err = ParseError.InvalidFormat) := by
  unfold parsePageSelection at h
  split at h
  · simp at h
  · simp only [Except.ok.injEq] at h
    subst h
    refine ⟨(List.sorted_lt_range _).filter _, List.Nodup.filter _ (List.nodup_range _),
      ?_, ?_, ?_⟩
    · intro x hx
      rw [List.mem_filter] at hx
      obtain ⟨hmem, hpred⟩ := hx
      rw [List.mem_range] at hmem
      rw [Bool.and_eq_true] at hpred
      have h1 : 1 ≤ x := of_decide_eq_true hpred.1
      exact ⟨h1, by omega⟩
    · intro t n ht
      unfold parsePageSelection
      rw [ht]
    · intro t n err herr
      cases err
      rfl

/-- Witness for C9 at a concrete input: the spec's own test vector
`parsePageSelection "1,3,5-7" 10 = [1, 3, 5, 6, 7]`. -/
theorem parsePageSelection_spec_witness :
    ([1, 3, 5, 6, 7] : List Nat).Sorted (· < ·) ∧
    ([1, 3, 5, 6, 7] : List Nat).Nodup ∧
    (∀ x ∈ ([1, 3, 5, 6, 7] : List Nat), 1 ≤ x ∧ x ≤ 10) ∧
    (∀ (t : String) (n : Nat),
      (splitOnChar ',' t.toList).mapM parseToken = none →
      parsePageSelection t n = Except.error ParseError.InvalidFormat) ∧
    (∀ (t : String) (n : Nat) (err : ParseError),
      parsePageSelection t n = Except.error err → err = ParseError.InvalidFormat) :=
  parsePageSelection_spec "1,3,5-7" 10 [1, 3, 5, 6, 7] rfl

/-- Witness for C10 at a concrete input: one page, interval `[2, 1]`. -/
theorem inverted_interval_noop_witness :
    add_page_numbers_to_pdf (PdfInput.wellFormed [onePage]) 2 (some 1) 12 "Helvetica"
      = Result.ok [onePage] :=
  inverted_interval_noop [onePage] 2 1 12 "Helvetica" (by omega)

/-- Witness for C6 at a concrete input: one page, interval `[1, 1]`. -/
theorem overlay_geometry_witness :
    ∃ ov, [mergePage onePage demoOv][(0 : Nat)]? = some (mergePage onePage ov) ∧
      ov.width = onePage.width ∧ ov.height = onePage.height ∧
      ov.x = onePage.width - 15 ∧ ov.y = onePage.height - 15 ∧
      ov.rightAligned = true ∧
      ov.text = toString ((1 : Int) + (((0 : Nat) : Int) + 1 - 1)) ∧
      ov.fontName = "Helvetica" ∧ ov.fontSize = 12 :=
  overlay_geometry [onePage] [mergePage onePage demoOv] 1 1 12 "Helvetica" 0 onePage
    rfl rfl (by omega) (by omega)
